import Mathlib

/-!
Verification of the Pallene runtime core layer (`src/runtime/pallene_core.h`).

The repository ships the header `pallene_core.h`, which declares the runtime
entry points (tag naming, nine error constructors, batched string
concatenation, array renormalization) together with their `PALLENE_NORETURN`
attributes.  The implementations live outside the shipped sources, so the
behaviour of each entry point is modelled from the specification, while the
signatures and attributes are transcribed from the header itself.
-/

namespace PalleneCore

/-! ## The header, transcribed as data

`pallene_core.h` lines 14-57 declare twelve functions.  We transcribe each
declaration: return type, name, parameters (type and name), and whether it
carries the `PALLENE_NORETURN` attribute. -/

structure CParam where
  ty : String
  pname : String
deriving DecidableEq, Repr

structure CDecl where
  ret : String
  cname : String
  params : List CParam
  noreturn : Bool
deriving DecidableEq, Repr

/-- The twelve declarations of `pallene_core.h`, in order. -/
def pallene_core_header : List CDecl :=
  [ ⟨"const char *", "pallene_tag_name",
      [⟨"int", "raw_tag"⟩], false⟩,
    ⟨"void", "pallene_runtime_arity_error",
      [⟨"lua_State *", "L"⟩, ⟨"int", "expected"⟩, ⟨"int", "received"⟩], true⟩,
    ⟨"void", "pallene_runtime_argument_type_error",
      [⟨"lua_State *", "L"⟩, ⟨"const char *", "param_name"⟩, ⟨"int", "line"⟩,
       ⟨"int", "expected_tag"⟩, ⟨"TValue *", "slot"⟩], true⟩,
    ⟨"void", "pallene_runtime_array_type_error",
      [⟨"lua_State *", "L"⟩, ⟨"int", "line"⟩, ⟨"int", "expected_tag"⟩,
       ⟨"int", "received_tag"⟩], true⟩,
    ⟨"void", "pallene_runtime_function_return_error",
      [⟨"lua_State *", "L"⟩, ⟨"int", "line"⟩, ⟨"int", "expected_tag"⟩,
       ⟨"int", "received_tag"⟩], true⟩,
    ⟨"void", "pallene_runtime_divide_by_zero_error",
      [⟨"lua_State *", "L"⟩, ⟨"int", "line"⟩], true⟩,
    ⟨"void", "pallene_runtime_mod_by_zero_error",
      [⟨"lua_State *", "L"⟩, ⟨"int", "line"⟩], true⟩,
    ⟨"int", "pallene_runtime_record_nonstr_error",
      [⟨"lua_State *", "L"⟩, ⟨"int", "received_tag"⟩], true⟩,
    ⟨"int", "pallene_runtime_record_index_error",
      [⟨"lua_State *", "L"⟩, ⟨"const char *", "key"⟩], true⟩,
    ⟨"int", "pallene_runtime_record_type_error",
      [⟨"lua_State *", "L"⟩, ⟨"const char *", "key"⟩, ⟨"int", "expected_tag"⟩,
       ⟨"int", "received_tag"⟩], true⟩,
    ⟨"TString *", "pallene_string_concatN",
      [⟨"lua_State *", "L"⟩, ⟨"size_t", "n"⟩, ⟨"TString **", "ss"⟩], false⟩,
    ⟨"void", "pallene_renormalize_array",
      [⟨"lua_State *", "L"⟩, ⟨"Table *", "arr"⟩, ⟨"unsigned int", "i"⟩,
       ⟨"int", "line"⟩], false⟩ ]

/-- Look a declaration up by its C name. -/
def declNamed (n : String) : Option CDecl :=
  pallene_core_header.find? (fun d => d.cname == n)

/-- Whether a declaration has a parameter named `line`. -/
def hasLineParam (d : CDecl) : Bool :=
  d.params.any (fun p => p.pname == "line")

/-! ## Type tags

Modelled from the spec: the host value kinds listed in the data model
(nil, boolean, integer, float, string, array/table, function, userdata);
the host's concrete tag representation is outside the shipped sources. -/

inductive Tag where
  | tnil
  | tboolean
  | tinteger
  | tfloat
  | tstring
  | ttable
  | tfunction
  | tuserdata
deriving DecidableEq, Repr, Fintype

/-- Modelled from the spec: `pallene_tag_name` (implementation not in the
shipped sources) maps every type tag to a stable human-readable name. -/
def pallene_tag_name : Tag → String
  | .tnil => "nil"
  | .tboolean => "boolean"
  | .tinteger => "integer"
  | .tfloat => "float"
  | .tstring => "string"
  | .ttable => "table"
  | .tfunction => "function"
  | .tuserdata => "userdata"

/-! ## Tagged values -/

/-- Modelled from the spec: a tagged host value.  Payloads irrelevant to the
boundary checks (tables, functions, userdata) are represented by an identity. -/
inductive TValue where
  | vnil
  | vbool (b : Bool)
  | vint (n : Int)
  | vfloat (id : Nat)
  | vstr (s : String)
  | vtable (id : Nat)
  | vfunction (id : Nat)
  | vuserdata (id : Nat)
deriving DecidableEq, Repr

/-- The type tag carried by a tagged value. -/
def tagOf : TValue → Tag
  | .vnil => .tnil
  | .vbool _ => .tboolean
  | .vint _ => .tinteger
  | .vfloat _ => .tfloat
  | .vstr _ => .tstring
  | .vtable _ => .ttable
  | .vfunction _ => .tfunction
  | .vuserdata _ => .tuserdata

/-! ## Diagnostics and error constructors

Modelled from the spec: each error constructor builds a diagnostic (a message,
optionally a source line) and raises a non-local failure; `PALLENE_NORETURN`
in the header states that none of them returns to its caller.  Following the
design notes, the never-returning raise is embedded as an `Except` whose
success branch is never produced. -/

inductive ErrKind where
  | arity
  | argType
  | arrayType
  | returnType
  | divZero
  | modZero
  | recNonStr
  | recIndex
  | recType
deriving DecidableEq, Repr

structure Diagnostic where
  kind : ErrKind
  msg : String
  line : Option Nat
deriving DecidableEq, Repr

/-- Diagnostic of the arity error: mentions both counts, no source line. -/
def arity_diag (expected received : Int) : Diagnostic :=
  ⟨.arity,
   "wrong number of arguments: expected " ++ toString expected ++
     " but received " ++ toString received,
   none⟩

/-- Diagnostic of the argument type error: parameter name, expected versus
actual type name (read from the offending value), and the source line. -/
def argument_type_diag (param_name : String) (line : Nat) (expected_tag : Tag)
    (slot : TValue) : Diagnostic :=
  ⟨.argType,
   "wrong type for argument " ++ param_name ++ ": expected " ++
     pallene_tag_name expected_tag ++ " but found " ++
     pallene_tag_name (tagOf slot),
   some line⟩

/-- Diagnostic of the array element type error. -/
def array_type_diag (line : Nat) (expected_tag received_tag : Tag) : Diagnostic :=
  ⟨.arrayType,
   "wrong type for array element: expected " ++ pallene_tag_name expected_tag ++
     " but found " ++ pallene_tag_name received_tag,
   some line⟩

/-- Diagnostic of the function return type error. -/
def function_return_diag (line : Nat) (expected_tag received_tag : Tag) :
    Diagnostic :=
  ⟨.returnType,
   "wrong type for function result: expected " ++
     pallene_tag_name expected_tag ++ " but found " ++
     pallene_tag_name received_tag,
   some line⟩

/-- Diagnostic of the integer divide-by-zero error. -/
def divide_by_zero_diag (line : Nat) : Diagnostic :=
  ⟨.divZero, "attempt to perform integer division by zero", some line⟩

/-- Diagnostic of the integer modulo-by-zero error. -/
def mod_by_zero_diag (line : Nat) : Diagnostic :=
  ⟨.modZero, "attempt to perform n mod 0", some line⟩

/-- Diagnostic of the record non-string-key error: names the key's tag,
no source line. -/
def record_nonstr_diag (received_tag : Tag) : Diagnostic :=
  ⟨.recNonStr,
   "attempt to access non-string record field of type " ++
     pallene_tag_name received_tag,
   none⟩

/-- Diagnostic of the record missing-key error: names the key, no source line. -/
def record_index_diag (key : String) : Diagnostic :=
  ⟨.recIndex, "attempt to access nonexistent record field " ++ key, none⟩

/-- Diagnostic of the record field type error: key, expected versus actual
type name, no source line. -/
def record_type_diag (key : String) (expected_tag received_tag : Tag) :
    Diagnostic :=
  ⟨.recType,
   "wrong type for record field " ++ key ++ ": expected " ++
     pallene_tag_name expected_tag ++ " but found " ++
     pallene_tag_name received_tag,
   none⟩

/-- Modelled from the spec: `pallene_runtime_arity_error` (implementation not
in the shipped sources) raises its diagnostic and never returns. -/
def pallene_runtime_arity_error (expected received : Int) :
    Except Diagnostic Unit :=
  .error (arity_diag expected received)

/-- Modelled from the spec: `pallene_runtime_argument_type_error`. -/
def pallene_runtime_argument_type_error (param_name : String) (line : Nat)
    (expected_tag : Tag) (slot : TValue) : Except Diagnostic Unit :=
  .error (argument_type_diag param_name line expected_tag slot)

/-- Modelled from the spec: `pallene_runtime_array_type_error`. -/
def pallene_runtime_array_type_error (line : Nat)
    (expected_tag received_tag : Tag) : Except Diagnostic Unit :=
  .error (array_type_diag line expected_tag received_tag)

/-- Modelled from the spec: `pallene_runtime_function_return_error`. -/
def pallene_runtime_function_return_error (line : Nat)
    (expected_tag received_tag : Tag) : Except Diagnostic Unit :=
  .error (function_return_diag line expected_tag received_tag)

/-- Modelled from the spec: `pallene_runtime_divide_by_zero_error`. -/
def pallene_runtime_divide_by_zero_error (line : Nat) :
    Except Diagnostic Unit :=
  .error (divide_by_zero_diag line)

/-- Modelled from the spec: `pallene_runtime_mod_by_zero_error`. -/
def pallene_runtime_mod_by_zero_error (line : Nat) : Except Diagnostic Unit :=
  .error (mod_by_zero_diag line)

/-- Modelled from the spec: `pallene_runtime_record_nonstr_error`; the header
declares an `int` return type, so the success type of the model is `Int`. -/
def pallene_runtime_record_nonstr_error (received_tag : Tag) :
    Except Diagnostic Int :=
  .error (record_nonstr_diag received_tag)

/-- Modelled from the spec: `pallene_runtime_record_index_error`. -/
def pallene_runtime_record_index_error (key : String) :
    Except Diagnostic Int :=
  .error (record_index_diag key)

/-- Modelled from the spec: `pallene_runtime_record_type_error`. -/
def pallene_runtime_record_type_error (key : String)
    (expected_tag received_tag : Tag) : Except Diagnostic Int :=
  .error (record_type_diag key expected_tag received_tag)

/-- A call raises a non-local failure: its result is an error, never a
success value returned to the caller. -/
def neverReturns {α : Type} (e : Except Diagnostic α) : Prop :=
  ∃ d, e = Except.error d

/-- The source line carried by the diagnostic of a raised error. -/
def errLine {α : Type} : Except Diagnostic α → Option Nat
  | .error d => d.line
  | .ok _ => none

/-! ## Record field access

Modelled from the spec: the record-access check sequence compiled by the front
end (not in the shipped sources).  A record is keyed by strings; indexing with
a non-string key raises the non-string-key error before any lookup, an absent
key raises the missing-key error, and a present key whose value has the wrong
tag raises the field type error. -/

/-- Look a string key up in a record's field list. -/
def lookupRec : List (String × TValue) → String → Option TValue
  | [], _ => none
  | p :: rest, k => if p.1 = k then some p.2 else lookupRec rest k

/-- Modelled from the spec: record field access guarded by the three record
error constructors. -/
def pallene_record_get (rec : List (String × TValue)) (key : TValue)
    (expected_tag : Tag) : Except Diagnostic TValue :=
  match key with
  | .vstr k =>
    match lookupRec rec k with
    | none => .error (record_index_diag k)
    | some v =>
      if tagOf v = expected_tag then .ok v
      else .error (record_type_diag k expected_tag (tagOf v))
  | _ => .error (record_nonstr_diag (tagOf key))

/-! ## String concatenation

Modelled from the spec: `pallene_string_concatN` (implementation not in the
shipped sources) first sums the input lengths to size one buffer, then copies
each input's bytes into the buffer exactly once.  Strings are byte lists; the
model buffer is a pre-sized list written through `List.set`, and each write is
counted so the copying cost is visible. -/

/-- Copy the bytes of `s` into `buf` starting at offset `pos`, one write per
byte; returns the updated buffer and the number of byte writes performed. -/
def memcpyBytes : List Nat → Nat → List Nat → List Nat × Nat
  | [], _, buf => (buf, 0)
  | b :: bs, pos, buf =>
    let r := memcpyBytes bs (pos + 1) (buf.set pos b)
    (r.1, r.2 + 1)

/-- Copy each input string into the buffer at consecutive offsets; returns the
final buffer and the total number of byte writes. -/
def concatCopyAll : List (List Nat) → Nat → List Nat → List Nat × Nat
  | [], _, buf => (buf, 0)
  | s :: rest, pos, buf =>
    let m := memcpyBytes s pos buf
    let r := concatCopyAll rest (pos + s.length) m.1
    (r.1, m.2 + r.2)

/-- The size of the single allocation: the sum of the input lengths. -/
def concatN_allocSize (ss : List (List Nat)) : Nat :=
  (ss.map List.length).sum

/-- Modelled from the spec: `pallene_string_concatN` — allocate one buffer of
the summed length, copy every input into it once, return its contents. -/
def pallene_string_concatN (ss : List (List Nat)) : List Nat :=
  (concatCopyAll ss 0 (List.replicate (concatN_allocSize ss) 0)).1

/-- The number of byte writes `pallene_string_concatN` performs on `ss`. -/
def concatN_copyCount (ss : List (List Nat)) : Nat :=
  (concatCopyAll ss 0 (List.replicate (concatN_allocSize ss) 0)).2

/-! ## Array renormalization

Modelled from the spec: the dynamic array keeps a contiguous store holding
indices `1 .. n` and an overflow store for indices outside that range; after a
write lands in the overflow store, `pallene_renormalize_array` repeatedly asks
whether index `n + 1` is present in the overflow store, moves it into the
contiguous store and increments `n`, stopping at the first absence.  The loop
is expressed with explicit fuel; the entry point supplies fuel one larger than
the overflow store, which the termination theorem shows is enough. -/

/-- A dynamic array: values at contiguous indices `1 .. contig.length`,
plus a sparse overflow store of (index, value) pairs. -/
structure PArray where
  contig : List TValue
  overflow : List (Nat × TValue)
deriving DecidableEq, Repr

/-- Look an index up in the overflow store. -/
def ovLookup : List (Nat × TValue) → Nat → Option TValue
  | [], _ => none
  | p :: rest, k => if p.1 = k then some p.2 else ovLookup rest k

/-- Remove every entry with the given index from the overflow store. -/
def ovErase (ov : List (Nat × TValue)) (k : Nat) : List (Nat × TValue) :=
  ov.filter (fun p => p.1 != k)

/-- The pull-forward loop: while index `n + 1` is present in the overflow
store, move it into the contiguous store. -/
def pullLoop : Nat → PArray → PArray
  | 0, a => a
  | fuel + 1, a =>
    match ovLookup a.overflow (a.contig.length + 1) with
    | none => a
    | some v =>
      pullLoop fuel
        ⟨a.contig ++ [v], ovErase a.overflow (a.contig.length + 1)⟩

/-- Modelled from the spec: `pallene_renormalize_array` (implementation not in
the shipped sources).  The just-written index `i` and the source line are
parameters of the C entry point; the pull-forward loop itself depends only on
the array state, since the write has already landed in a store. -/
def pallene_renormalize_array (a : PArray) (_i : Nat) (_line : Nat) : PArray :=
  pullLoop (a.overflow.length + 1) a

/-- The representation invariant on entry: every overflow entry's index lies
outside the contiguous range. -/
def ovWF (a : PArray) : Prop :=
  ∀ p ∈ a.overflow, a.contig.length < p.1

instance (a : PArray) : Decidable (ovWF a) := by
  unfold ovWF; infer_instance

/-- Whether an `Except` result hands a success value back to the caller. -/
def returnsValue {α : Type} : Except Diagnostic α → Bool
  | .ok _ => true
  | .error _ => false

/-! ## Lemmas about the string concatenation model -/

theorem set_append_cons (D : List Nat) (r b : Nat) (R : List Nat) :
    (D ++ r :: R).set D.length b = D ++ b :: R := by
  induction D with
  | nil => rfl
  | cons d D ih =>
    show d :: (D ++ r :: R).set D.length b = d :: (D ++ b :: R)
    rw [ih]

theorem memcpyBytes_fst (s : List Nat) (D R : List Nat)
    (h : s.length ≤ R.length) :
    (memcpyBytes s D.length (D ++ R)).1 = D ++ s ++ R.drop s.length := by
  induction s generalizing D R with
  | nil => simp [memcpyBytes]
  | cons b bs ih =>
    cases R with
    | nil => simp at h
    | cons r R =>
      have h1 : bs.length ≤ R.length := by simpa using h
      have hset : (D ++ r :: R).set D.length b = D ++ b :: R :=
        set_append_cons D r b R
      show (memcpyBytes bs (D.length + 1) ((D ++ r :: R).set D.length b)).1 =
        D ++ (b :: bs) ++ (r :: R).drop (b :: bs).length
      rw [hset]
      have := ih (D ++ [b]) R h1
      simpa [List.append_assoc] using this

theorem memcpyBytes_snd (s : List Nat) (pos : Nat) (buf : List Nat) :
    (memcpyBytes s pos buf).2 = s.length := by
  induction s generalizing pos buf with
  | nil => rfl
  | cons b bs ih => simp [memcpyBytes, ih]

theorem concatCopyAll_fst (ss : List (List Nat)) (D R : List Nat)
    (h : (ss.map List.length).sum ≤ R.length) :
    (concatCopyAll ss D.length (D ++ R)).1 =
      D ++ ss.flatten ++ R.drop ((ss.map List.length).sum) := by
  induction ss generalizing D R with
  | nil => simp [concatCopyAll]
  | cons s rest ih =>
    have hsum : s.length + (rest.map List.length).sum ≤ R.length := by
      simpa using h
    have hs : s.length ≤ R.length := by omega
    show (concatCopyAll rest (D.length + s.length)
        (memcpyBytes s D.length (D ++ R)).1).1 = _
    rw [memcpyBytes_fst s D R hs]
    have hr : (rest.map List.length).sum ≤ (R.drop s.length).length := by
      simp only [List.length_drop]; omega
    have hDs : D.length + s.length = (D ++ s).length := by simp
    rw [hDs, ih (D ++ s) (R.drop s.length) hr, List.drop_drop]
    simp [List.append_assoc]

theorem concatCopyAll_snd (ss : List (List Nat)) (pos : Nat) (buf : List Nat) :
    (concatCopyAll ss pos buf).2 = (ss.map List.length).sum := by
  induction ss generalizing pos buf with
  | nil => rfl
  | cons s rest ih => simp [concatCopyAll, memcpyBytes_snd, ih]

theorem concatN_eq_flatten (ss : List (List Nat)) :
    pallene_string_concatN ss = ss.flatten := by
  have h : (ss.map List.length).sum ≤
      (List.replicate (concatN_allocSize ss) 0).length := by
    simp [concatN_allocSize]
  have := concatCopyAll_fst ss [] (List.replicate (concatN_allocSize ss) 0) h
  simp only [List.length_nil, List.nil_append] at this
  rw [pallene_string_concatN, this]
  have hdrop : (List.replicate (concatN_allocSize ss) 0).drop
      ((ss.map List.length).sum) = [] := by
    apply List.drop_eq_nil_of_le
    simp [concatN_allocSize]
  rw [hdrop]
  simp

/-! ## Lemmas about the renormalization loop -/

theorem ovErase_length_lt (ov : List (Nat × TValue)) (k : Nat) (v : TValue)
    (h : ovLookup ov k = some v) : (ovErase ov k).length < ov.length := by
  induction ov with
  | nil => simp [ovLookup] at h
  | cons p rest ih =>
    by_cases hp : p.1 = k
    · have he : ovErase (p :: rest) k = ovErase rest k := by
        simp [ovErase, List.filter_cons, hp]
      rw [he]
      exact Nat.lt_succ_of_le (List.length_filter_le _ rest)
    · have hlk : ovLookup rest k = some v := by
        simpa [ovLookup, hp] using h
      have he : ovErase (p :: rest) k = p :: ovErase rest k := by
        simp [ovErase, List.filter_cons, hp]
      rw [he]
      simpa using ih hlk

theorem pullLoop_stopped (fuel : Nat) (a : PArray)
    (h : a.overflow.length < fuel) :
    ovLookup (pullLoop fuel a).overflow
      ((pullLoop fuel a).contig.length + 1) = none := by
  induction fuel generalizing a with
  | zero => exact absurd h (Nat.not_lt_zero _)
  | succ fuel ih =>
    cases hl : ovLookup a.overflow (a.contig.length + 1) with
    | none => simp [pullLoop, hl]
    | some v =>
      have hlt : (ovErase a.overflow (a.contig.length + 1)).length < fuel :=
        Nat.lt_of_lt_of_le (ovErase_length_lt _ _ _ hl) (Nat.lt_succ_iff.mp h)
      simpa [pullLoop, hl]
        using ih ⟨a.contig ++ [v], ovErase a.overflow (a.contig.length + 1)⟩ hlt

theorem pullLoop_fuel_irrel (f1 f2 : Nat) (a : PArray)
    (h1 : a.overflow.length < f1) (h2 : a.overflow.length < f2) :
    pullLoop f1 a = pullLoop f2 a := by
  induction f1 generalizing f2 a with
  | zero => exact absurd h1 (Nat.not_lt_zero _)
  | succ f1 ih =>
    cases f2 with
    | zero => exact absurd h2 (Nat.not_lt_zero _)
    | succ f2 =>
      cases hl : ovLookup a.overflow (a.contig.length + 1) with
      | none => simp [pullLoop, hl]
      | some v =>
        have hlt := ovErase_length_lt _ _ _ hl
        simp only [pullLoop, hl]
        apply ih
        · show (ovErase a.overflow (a.contig.length + 1)).length < f1
          omega
        · show (ovErase a.overflow (a.contig.length + 1)).length < f2
          omega

theorem pullLoop_WF (fuel : Nat) (a : PArray) (h : ovWF a) :
    ovWF (pullLoop fuel a) := by
  induction fuel generalizing a with
  | zero => exact h
  | succ fuel ih =>
    cases hl : ovLookup a.overflow (a.contig.length + 1) with
    | none => simpa [pullLoop, hl] using h
    | some v =>
      simp only [pullLoop, hl]
      apply ih
      intro p hp
      have hmem := List.mem_filter.mp hp
      have hne : p.1 ≠ a.contig.length + 1 := by simpa using hmem.2
      have := h p hmem.1
      simp only [List.length_append, List.length_cons, List.length_nil]
      omega

theorem pullLoop_eq_of_stopped (fuel : Nat) (a : PArray)
    (h : ovLookup a.overflow (a.contig.length + 1) = none) :
    pullLoop fuel a = a := by
  cases fuel with
  | zero => rfl
  | succ fuel => simp [pullLoop, h]

/-! ## The claims -/

/-- C1: every one of the nine error constructors is declared `PALLENE_NORETURN`
in the header, and, for every input it is called with, the model raises a
diagnostic and never hands a success value back to its caller. -/
theorem claim_C1 :
    ((pallene_core_header.filter (fun d => d.noreturn)).map (fun d => d.cname) =
      ["pallene_runtime_arity_error", "pallene_runtime_argument_type_error",
       "pallene_runtime_array_type_error",
       "pallene_runtime_function_return_error",
       "pallene_runtime_divide_by_zero_error",
       "pallene_runtime_mod_by_zero_error",
       "pallene_runtime_record_nonstr_error",
       "pallene_runtime_record_index_error",
       "pallene_runtime_record_type_error"]) ∧
    (∀ e r, neverReturns (pallene_runtime_arity_error e r)) ∧
    (∀ pn l et s, neverReturns (pallene_runtime_argument_type_error pn l et s)) ∧
    (∀ l et rt, neverReturns (pallene_runtime_array_type_error l et rt)) ∧
    (∀ l et rt, neverReturns (pallene_runtime_function_return_error l et rt)) ∧
    (∀ l, neverReturns (pallene_runtime_divide_by_zero_error l)) ∧
    (∀ l, neverReturns (pallene_runtime_mod_by_zero_error l)) ∧
    (∀ rt, neverReturns (pallene_runtime_record_nonstr_error rt)) ∧
    (∀ k, neverReturns (pallene_runtime_record_index_error k)) ∧
    (∀ k et rt, neverReturns (pallene_runtime_record_type_error k et rt)) :=
  ⟨by decide,
   fun e r => ⟨_, rfl⟩, fun pn l et s => ⟨_, rfl⟩, fun l et rt => ⟨_, rfl⟩,
   fun l et rt => ⟨_, rfl⟩, fun l => ⟨_, rfl⟩, fun l => ⟨_, rfl⟩,
   fun rt => ⟨_, rfl⟩, fun k => ⟨_, rfl⟩, fun k et rt => ⟨_, rfl⟩⟩

/-- C4: tag naming is a total function over the tag domain that returns a
non-empty name for every tag, and distinct tags receive distinct names. -/
theorem claim_C4 :
    (∀ t : Tag, pallene_tag_name t ≠ "") ∧
    (∀ a b : Tag, pallene_tag_name a = pallene_tag_name b → a = b) :=
  ⟨by decide, by decide⟩

/-- Witness for C4 at the integer tag. -/
theorem claim_C4_witness :
    pallene_tag_name Tag.tinteger ≠ "" ∧ Tag.tinteger = Tag.tinteger :=
  ⟨claim_C4.1 Tag.tinteger, claim_C4.2 Tag.tinteger Tag.tinteger rfl⟩

/-- C9: among the nine never-returning error constructors declared in the
header, exactly the argument-type, array-element-type, return-type,
divide-by-zero and modulo-by-zero constructors take a `line` parameter, and
only their diagnostics carry a source line; the arity and the three record
constructors produce diagnostics with no source-line attribution. -/
theorem claim_C9 :
    (((pallene_core_header.filter (fun d => d.noreturn)).filter
        hasLineParam).map (fun d => d.cname) =
      ["pallene_runtime_argument_type_error",
       "pallene_runtime_array_type_error",
       "pallene_runtime_function_return_error",
       "pallene_runtime_divide_by_zero_error",
       "pallene_runtime_mod_by_zero_error"]) ∧
    (((pallene_core_header.filter (fun d => d.noreturn)).filter
        (fun d => !hasLineParam d)).map (fun d => d.cname) =
      ["pallene_runtime_arity_error",
       "pallene_runtime_record_nonstr_error",
       "pallene_runtime_record_index_error",
       "pallene_runtime_record_type_error"]) ∧
    (∀ e r, errLine (pallene_runtime_arity_error e r) = none) ∧
    (∀ rt, errLine (pallene_runtime_record_nonstr_error rt) = none) ∧
    (∀ k, errLine (pallene_runtime_record_index_error k) = none) ∧
    (∀ k et rt, errLine (pallene_runtime_record_type_error k et rt) = none) ∧
    (∀ pn l et s, errLine (pallene_runtime_argument_type_error pn l et s) =
      some l) ∧
    (∀ l et rt, errLine (pallene_runtime_array_type_error l et rt) = some l) ∧
    (∀ l et rt, errLine (pallene_runtime_function_return_error l et rt) =
      some l) ∧
    (∀ l, errLine (pallene_runtime_divide_by_zero_error l) = some l) ∧
    (∀ l, errLine (pallene_runtime_mod_by_zero_error l) = some l) :=
  ⟨by decide, by decide,
   fun e r => rfl, fun rt => rfl, fun k => rfl, fun k et rt => rfl,
   fun pn l et s => rfl, fun l et rt => rfl, fun l et rt => rfl,
   fun l => rfl, fun l => rfl⟩

/-- C10: the three record error constructors are declared in the header with
an `int` return type yet carry the never-returns attribute, and for every
input the model never produces a success value a caller could observe. -/
theorem claim_C10 :
    ((declNamed "pallene_runtime_record_nonstr_error").map
        (fun d => (d.ret, d.noreturn)) = some ("int", true)) ∧
    ((declNamed "pallene_runtime_record_index_error").map
        (fun d => (d.ret, d.noreturn)) = some ("int", true)) ∧
    ((declNamed "pallene_runtime_record_type_error").map
        (fun d => (d.ret, d.noreturn)) = some ("int", true)) ∧
    (∀ rt, returnsValue (pallene_runtime_record_nonstr_error rt) = false) ∧
    (∀ k, returnsValue (pallene_runtime_record_index_error k) = false) ∧
    (∀ k et rt, returnsValue (pallene_runtime_record_type_error k et rt) =
      false) :=
  ⟨by decide, by decide, by decide,
   fun rt => rfl, fun k => rfl, fun k et rt => rfl⟩

/-- C7: record lookup failures are never confused — an absent key raises the
missing-key diagnostic, a present key of the wrong tag raises the field-type
diagnostic, and a non-string key raises the non-string-key diagnostic without
the record's contents ever being consulted; the three diagnostics carry three
distinct error kinds. -/
theorem claim_C7 :
    (∀ rec k et, lookupRec rec k = none →
      pallene_record_get rec (TValue.vstr k) et =
        Except.error (record_index_diag k)) ∧
    (∀ rec k et v, lookupRec rec k = some v → tagOf v ≠ et →
      pallene_record_get rec (TValue.vstr k) et =
        Except.error (record_type_diag k et (tagOf v))) ∧
    (∀ rec rec2 key et, tagOf key ≠ Tag.tstring →
      pallene_record_get rec key et =
        Except.error (record_nonstr_diag (tagOf key)) ∧
      pallene_record_get rec key et = pallene_record_get rec2 key et) ∧
    (∀ k et rt, (record_index_diag k).kind = ErrKind.recIndex ∧
      (record_type_diag k et rt).kind = ErrKind.recType ∧
      (record_nonstr_diag rt).kind = ErrKind.recNonStr) := by
  refine ⟨fun rec k et h => by simp [pallene_record_get, h],
    fun rec k et v h hne => by simp [pallene_record_get, h, hne],
    fun rec rec2 key et h => ?_,
    fun k et rt => ⟨rfl, rfl, rfl⟩⟩
  cases key with
  | vstr s => exact absurd rfl h
  | vnil => exact ⟨rfl, rfl⟩
  | vbool b => exact ⟨rfl, rfl⟩
  | vint n => exact ⟨rfl, rfl⟩
  | vfloat id => exact ⟨rfl, rfl⟩
  | vtable id => exact ⟨rfl, rfl⟩
  | vfunction id => exact ⟨rfl, rfl⟩
  | vuserdata id => exact ⟨rfl, rfl⟩

/-- Witness for C7 on the one-field record `{x = 1}`: a missing key, a
wrong-typed present key, and an integer key. -/
theorem claim_C7_witness :
    (lookupRec [("x", TValue.vint 1)] "y" = none ∧
      pallene_record_get [("x", TValue.vint 1)] (TValue.vstr "y") Tag.tinteger =
        Except.error (record_index_diag "y")) ∧
    (lookupRec [("x", TValue.vint 1)] "x" = some (TValue.vint 1) ∧
      tagOf (TValue.vint 1) ≠ Tag.tstring ∧
      pallene_record_get [("x", TValue.vint 1)] (TValue.vstr "x") Tag.tstring =
        Except.error (record_type_diag "x" Tag.tstring (tagOf (TValue.vint 1)))) ∧
    (tagOf (TValue.vint 5) ≠ Tag.tstring ∧
      pallene_record_get [("x", TValue.vint 1)] (TValue.vint 5) Tag.tinteger =
        Except.error (record_nonstr_diag (tagOf (TValue.vint 5))) ∧
      pallene_record_get [("x", TValue.vint 1)] (TValue.vint 5) Tag.tinteger =
        pallene_record_get [] (TValue.vint 5) Tag.tinteger) :=
  ⟨⟨by decide,
    claim_C7.1 [("x", TValue.vint 1)] "y" Tag.tinteger (by decide)⟩,
   ⟨by decide, by decide,
    claim_C7.2.1 [("x", TValue.vint 1)] "x" Tag.tstring (TValue.vint 1)
      (by decide) (by decide)⟩,
   by
    have h := claim_C7.2.2.1 [("x", TValue.vint 1)] [] (TValue.vint 5)
      Tag.tinteger (by decide)
    exact ⟨by decide, h.1, h.2⟩⟩

/-- C3: for every ordered sequence of strings, the batched concatenation
produces the byte-wise concatenation of the inputs in order, and the empty
and singleton sequences succeed as ordinary cases with results `""` and the
single input. -/
theorem claim_C3 :
    (∀ ss : List (List Nat), pallene_string_concatN ss = ss.flatten) ∧
    pallene_string_concatN [] = [] ∧
    (∀ s : List Nat, pallene_string_concatN [s] = s) :=
  ⟨concatN_eq_flatten, concatN_eq_flatten [],
   fun s => (concatN_eq_flatten [s]).trans (by simp)⟩

/-- C8: concatenating N strings of total byte length L sizes one allocation
of exactly L bytes by summing the input lengths, performs exactly L byte
writes (each input's bytes are copied into the buffer once, regardless of N),
and yields a result of length L. -/
theorem claim_C8 (ss : List (List Nat)) :
    concatN_allocSize ss = (ss.map List.length).sum ∧
    concatN_copyCount ss = (ss.map List.length).sum ∧
    (pallene_string_concatN ss).length = (ss.map List.length).sum :=
  ⟨rfl, concatCopyAll_snd ss 0 _,
   by rw [concatN_eq_flatten]; exact List.length_flatten ss⟩

/-- C2: after renormalization of an array satisfying the representation
invariant, the overflow store holds only indices greater than the contiguous
bound, the index one past the bound is not pullable (the bound is the longest
contiguous run), and every index in `[1, n]` is resolvable through the
contiguous store. -/
theorem claim_C2 (a : PArray) (i line : Nat) (h : ovWF a) :
    ovWF (pallene_renormalize_array a i line) ∧
    ovLookup (pallene_renormalize_array a i line).overflow
      ((pallene_renormalize_array a i line).contig.length + 1) = none ∧
    (∀ j, 1 ≤ j → j ≤ (pallene_renormalize_array a i line).contig.length →
      ∃ v, (pallene_renormalize_array a i line).contig[j - 1]? = some v) :=
  ⟨pullLoop_WF _ a h,
   pullLoop_stopped _ a (Nat.lt_succ_self _),
   fun j h1 h2 =>
     ⟨_, List.getElem?_eq_getElem (by omega)⟩⟩

/-- Witness for C2 on the array whose overflow store holds indices 3, 1, 2. -/
theorem claim_C2_witness :
    ovWF ⟨[], [(3, TValue.vint 3), (1, TValue.vint 1), (2, TValue.vint 2)]⟩ ∧
    (ovWF (pallene_renormalize_array
        ⟨[], [(3, TValue.vint 3), (1, TValue.vint 1), (2, TValue.vint 2)]⟩
        2 1) ∧
      ovLookup (pallene_renormalize_array
        ⟨[], [(3, TValue.vint 3), (1, TValue.vint 1), (2, TValue.vint 2)]⟩
        2 1).overflow
        ((pallene_renormalize_array
          ⟨[], [(3, TValue.vint 3), (1, TValue.vint 1), (2, TValue.vint 2)]⟩
          2 1).contig.length + 1) = none ∧
      (∀ j, 1 ≤ j →
        j ≤ (pallene_renormalize_array
          ⟨[], [(3, TValue.vint 3), (1, TValue.vint 1), (2, TValue.vint 2)]⟩
          2 1).contig.length →
        ∃ v, (pallene_renormalize_array
          ⟨[], [(3, TValue.vint 3), (1, TValue.vint 1), (2, TValue.vint 2)]⟩
          2 1).contig[j - 1]? = some v)) :=
  ⟨by decide,
   claim_C2 ⟨[], [(3, TValue.vint 3), (1, TValue.vint 1), (2, TValue.vint 2)]⟩
     2 1 (by decide)⟩

/-- C5: the pull-forward loop terminates within as many steps as the overflow
store has entries — any fuel strictly larger than the overflow store's size
yields the very result the entry point computes, because each pull strictly
shrinks the overflow store and the loop stops at the first gap. -/
theorem claim_C5 (a : PArray) (i line fuel : Nat)
    (h : a.overflow.length < fuel) :
    pullLoop fuel a = pallene_renormalize_array a i line :=
  pullLoop_fuel_irrel fuel (a.overflow.length + 1) a h (Nat.lt_succ_self _)

/-- Witness for C5 on a one-entry overflow store with generous fuel. -/
theorem claim_C5_witness :
    (PArray.mk [] [(1, TValue.vint 1)]).overflow.length < 5 ∧
    pullLoop 5 ⟨[], [(1, TValue.vint 1)]⟩ =
      pallene_renormalize_array ⟨[], [(1, TValue.vint 1)]⟩ 1 7 :=
  ⟨by decide, claim_C5 ⟨[], [(1, TValue.vint 1)]⟩ 1 7 5 (by decide)⟩

/-- C6: renormalization is idempotent — running it again on an already
renormalized array, with no out-of-range write in between, changes neither
the contiguous store nor the overflow store. -/
theorem claim_C6 (a : PArray) (i line i2 line2 : Nat) :
    pallene_renormalize_array (pallene_renormalize_array a i line) i2 line2 =
      pallene_renormalize_array a i line :=
  pullLoop_eq_of_stopped _ _
    (pullLoop_stopped (a.overflow.length + 1) a (Nat.lt_succ_self _))

end PalleneCore
